import Mathlib

/-!
Shallow embedding of `src/monitor/monitor_appstore.py` (App Store listing
monitor).  Python values parsed from JSON files are modelled by the `Json`
inductive; Python dicts are modelled as association lists with unique keys
(dict insertion is `assocSet`, dict lookup is `dictGet`).  Machine time is
modelled by an explicit `now : Int` (Unix seconds, UTC): every Python call
of `datetime.now` inside one run reads this value, so the impure clock
becomes an explicit input.  `json.dump` followed by `json.load` is modelled
as the identity on the `Json` value (the Python `json` library round-trips
the dicts/strings/bools/ints/nulls this program writes; key order produced
by `sort_keys=True` is irrelevant to dict lookup).  Network probes are
modelled by an explicit function from attempt index to probe outcome, and
the notification transport by an explicit success flag.
-/

/-- JSON-like Python value (as produced by `json.load`).  The state and
apps files of this program only contain objects, arrays, strings, booleans,
integers and nulls, so numbers are modelled as `Int`. -/
inductive Json where
  | null
  | bool (b : Bool)
  | num (n : Int)
  | str (s : String)
  | arr (xs : List Json)
  | obj (fields : List (String × Json))
deriving Repr

/-- Python dict lookup `d.get(k)` on an association list. -/
def dictGet : List (String × Json) → String → Option Json
  | [], _ => none
  | (k, v) :: rest, key => if k = key then some v else dictGet rest key

/-- Python dict lookup with default `d.get(k, dflt)`. -/
def dictGetD (fs : List (String × Json)) (key : String) (dflt : Json) : Json :=
  (dictGet fs key).getD dflt

/-- Python dict assignment `d[k] = v`: replaces the value at an existing
key in place, otherwise appends the new binding (insertion order; keys are
unique in every dict built this way). -/
def assocSet : List (String × Json) → String → Json → List (String × Json)
  | [], k, v => [(k, v)]
  | (k1, v1) :: rest, k, v =>
      if k1 = k then (k, v) :: rest else (k1, v1) :: assocSet rest k v

/-- Python truthiness `bool(x)` of a JSON-decoded value. -/
def Json.truthy : Json → Bool
  | .null => false
  | .bool b => b
  | .num n => n != 0
  | .str s => s != ""
  | .arr xs => !xs.isEmpty
  | .obj fs => !fs.isEmpty

/-- Python `repr` of a JSON-decoded value (containers as printed by
`str(list)` / `str(dict)`). -/
def pyRepr : Json → String
  | .null => "None"
  | .bool true => "True"
  | .bool false => "False"
  | .num n => toString n
  | .str s => "\x27" ++ s ++ "\x27"
  | .arr xs => "[" ++ String.intercalate ", " (xs.attach.map (fun x => pyRepr x.1)) ++ "]"
  | .obj fs =>
      "\x7b" ++
        String.intercalate ", "
          (fs.attach.map (fun p => "\x27" ++ p.1.1 ++ "\x27: " ++ pyRepr p.1.2)) ++
      "\x7d"
decreasing_by
  · have := List.sizeOf_lt_of_mem x.2
    simp only [Json.arr.sizeOf_spec]
    omega
  · obtain ⟨⟨a, b⟩, hp⟩ := p
    have := List.sizeOf_lt_of_mem hp
    simp only [Json.obj.sizeOf_spec, Prod.mk.sizeOf_spec] at *
    omega

/-- Python `str(x)` of a JSON-decoded value. -/
def pyStr : Json → String
  | .str s => s
  | v => pyRepr v

/-- Drop leading whitespace characters. -/
def dropWsLeft : List Char → List Char
  | [] => []
  | c :: cs => if c.isWhitespace then dropWsLeft cs else c :: cs

/-- Python `str.strip()`: remove leading and trailing whitespace. -/
def pyStrip (s : String) : String :=
  String.mk ((dropWsLeft (dropWsLeft s.toList).reverse).reverse)

/-- Python `str.isdigit()` (ASCII digits; false on the empty string). -/
def pyIsDigit (s : String) : Bool :=
  !s.toList.isEmpty && s.toList.all Char.isDigit

/-- Whether `pre` is an initial segment of `cs` (Python `str.startswith`). -/
def listStartsWith : List Char → List Char → Bool
  | _, [] => true
  | [], _ :: _ => false
  | c :: cs, p :: ps => c = p && listStartsWith cs ps

/-- Python `s.startswith(pre)`. -/
def strStartsWith (s pre : String) : Bool :=
  listStartsWith s.toList pre.toList

/-! ## Calendar arithmetic (for `datetime` modelling) -/

/-- Gregorian leap year. -/
def isLeapYear (y : Int) : Bool :=
  (y.emod 4 = 0 && y.emod 100 != 0) || y.emod 400 = 0

/-- Days in a Gregorian month. -/
def daysInMonth (y : Int) (m : Nat) : Nat :=
  if m = 2 then (if isLeapYear y then 29 else 28)
  else if m = 4 ∨ m = 6 ∨ m = 9 ∨ m = 11 then 30
  else 31

/-- Days since 1970-01-01 of a Gregorian civil date
(Howard Hinnant, `days_from_civil`). -/
def daysFromCivil (y0 : Int) (m d : Nat) : Int :=
  let y : Int := if m ≤ 2 then y0 - 1 else y0
  let era : Int := y.ediv 400
  let yoe : Nat := (y - era * 400).toNat
  let mp : Nat := if 2 < m then m - 3 else m + 9
  let doy : Nat := (153 * mp + 2) / 5 + d - 1
  let doe : Nat := yoe * 365 + yoe / 4 - yoe / 100 + doy
  era * 146097 + (doe : Int) - 719468

/-- Gregorian civil date of a day count since 1970-01-01
(Howard Hinnant, `civil_from_days`). -/
def civilFromDays (z0 : Int) : Int × Nat × Nat :=
  let z : Int := z0 + 719468
  let era : Int := z.ediv 146097
  let doe : Nat := (z - era * 146097).toNat
  let yoe : Nat := (doe - doe / 1460 + doe / 36524 - doe / 146096) / 365
  let y : Int := (yoe : Int) + era * 400
  let doy : Nat := doe - (365 * yoe + yoe / 4 - yoe / 100)
  let mp : Nat := (5 * doy + 2) / 153
  let d : Nat := doy - (153 * mp + 2) / 5 + 1
  let m : Nat := if mp < 10 then mp + 3 else mp - 9
  (if m ≤ 2 then y + 1 else y, m, d)

/-- A timezone-aware Python `datetime` value. -/
structure DateTime where
  year : Int
  month : Nat
  day : Nat
  hour : Nat
  minute : Nat
  second : Nat
  /-- UTC offset of the attached `tzinfo`, in seconds. -/
  tzOffsetSeconds : Int
deriving DecidableEq, Repr

/-- Unix timestamp (seconds, UTC) of a `DateTime`; used for
`dt.astimezone(timezone.utc)` comparisons with `datetime.now`. -/
def DateTime.toEpoch (dt : DateTime) : Int :=
  daysFromCivil dt.year dt.month dt.day * 86400 +
    (dt.hour : Int) * 3600 + (dt.minute : Int) * 60 + (dt.second : Int) -
    dt.tzOffsetSeconds

/-- Zero-pad a natural number to two digits (strftime field rendering). -/
def pad2 (n : Nat) : String :=
  if n < 10 then "0" ++ toString n else toString n

/-- Zero-pad a year to four digits (strftime `%Y`). -/
def pad4 (y : Int) : String :=
  if y < 0 then toString y
  else
    let s := toString y.toNat
    if 4 ≤ s.length then s
    else String.mk (List.replicate (4 - s.length) '0') ++ s

/-- strftime `%z` rendering of a UTC offset in seconds, e.g. `+0800`. -/
def renderTzOffset (off : Int) : String :=
  let sign := if off < 0 then "-" else "+"
  let a := off.natAbs
  sign ++ pad2 (a / 3600) ++ pad2 (a % 3600 / 60)

/-- strftime `"%Y-%m-%d %H:%M:%S"` of a Unix timestamp already shifted
into the display timezone. -/
def renderCivil (t : Int) : String :=
  let days := t.ediv 86400
  let tod := (t.emod 86400).toNat
  let c := civilFromDays days
  let h := tod / 3600
  let mi := tod % 3600 / 60
  let s := tod % 60
  pad4 c.1 ++ "-" ++ pad2 c.2.1 ++ "-" ++ pad2 c.2.2 ++ " " ++
    pad2 h ++ ":" ++ pad2 mi ++ ":" ++ pad2 s

/-- strftime `"%Y-%m-%d %H:%M:%S %z"` of a `DateTime` (used for
`listed_at` in the full report and for `updated_at_utc`). -/
def renderDateTimeTz (dt : DateTime) : String :=
  pad4 dt.year ++ "-" ++ pad2 dt.month ++ "-" ++ pad2 dt.day ++ " " ++
    pad2 dt.hour ++ ":" ++ pad2 dt.minute ++ ":" ++ pad2 dt.second ++ " " ++
    renderTzOffset dt.tzOffsetSeconds

/-- strftime `"%Y-%m-%d"` of a `DateTime`. -/
def renderDateOnly (dt : DateTime) : String :=
  pad4 dt.year ++ "-" ++ pad2 dt.month ++ "-" ++ pad2 dt.day

/-! ## Core data model (`UrlCheck`, `AppCheckResult`) -/

/-- Dataclass `UrlCheck`: classified outcome of one probe of one URL. -/
structure UrlCheck where
  url : String
  ok : Bool
  http_status : Option Int
  detail : String
deriving DecidableEq, Repr

/-- Dataclass `AppCheckResult`: one monitored target together with the
last/winning probe outcome. -/
structure AppCheckResult where
  name : String
  app_id : String
  store_url : String
  listed_at : Option DateTime
  check : UrlCheck
deriving DecidableEq, Repr

/-- Derived property `AppCheckResult.ok`. -/
def AppCheckResult.ok (r : AppCheckResult) : Bool := r.check.ok

/-- Embeds `format_timedelta`: whole days, floored at "不足1天".  The argument is
the exact number of elapsed seconds (Python truncates the float seconds to
`int`; elapsed times here are whole seconds). -/
def format_timedelta (total_seconds : Int) : String :=
  let seconds : Nat := if total_seconds < 0 then 0 else total_seconds.toNat
  let days := seconds / 86400
  if days = 0 then "不足1天" else s!"{days}天"

/-- Fixed UTC offset (seconds) the program associates with a timezone
name: +8h for the listed Chinese zone names, else UTC. -/
def tzOffsetFor (tz_name : String) : Int :=
  if tz_name = "Asia/Shanghai" ∨ tz_name = "Asia/Chongqing" ∨
     tz_name = "Asia/Beijing" ∨ tz_name = "Asia/Urumqi" then 8 * 3600 else 0

/-- Embeds `_now_iso`: current time rendered in the display timezone;
the `%z` suffix is kept only for the non-Chinese (UTC) zones. -/
def now_iso (tz_name : String) (now : Int) : String :=
  let offset := tzOffsetFor tz_name
  let base := renderCivil (now + offset)
  if offset = 8 * 3600 then base else base ++ " +0000"

/-- Embeds `format_reason`: human-readable failure reason from status/detail. -/
def format_reason (http_status : Option Int) (detail : String) : String :=
  match http_status with
  | none =>
      let d := pyStrip detail
      if d ≠ "" then s!"网络异常/超时（{d}）" else "网络异常/超时"
  | some hs =>
      if hs = 404 then "404（强信号：可能下架/该区不可用）"
      else if hs = 410 then "410（强信号：资源已移除/下架）"
      else if hs = 403 then "403（可能触发风控/需要验证/地区限制）"
      else if hs = 429 then "429（请求过多：被限流）"
      else if 500 ≤ hs ∧ hs ≤ 599 then s!"{hs}（App Store 服务器异常/临时故障）"
      else if 400 ≤ hs ∧ hs ≤ 499 then s!"{hs}（客户端错误：页面不可用/跳转异常）"
      else s!"{hs}（页面不可访问）"

/-- Embeds `AppCheckResult.summary_line` (reads the clock for the
duration-since-listed of a failing target). -/
def summary_line (r : AppCheckResult) (now : Int) : String :=
  let ok_str := if r.ok then "✅ 正常" else "❌ 异常"
  let dur :=
    match r.listed_at with
    | some la =>
        if r.ok then ""
        else
          let td := format_timedelta (now - la.toEpoch)
          s!"（{td}）"
    | none => ""
  s!"{ok_str} {r.name}{dur}"

/-! ## StateStore and AlertEngine data -/

/-- Embeds `_app_state_key`: stable key of a target across runs. -/
def app_state_key (app_id store_url : String) : String :=
  app_id ++ "|" ++ store_url

/-- Stable key of a check result. -/
def AppCheckResult.key (r : AppCheckResult) : String :=
  app_state_key r.app_id r.store_url

/-- The `bad` list: the failing results, in input order. -/
def badOf (results : List AppCheckResult) : List AppCheckResult :=
  results.filter (fun r => !r.ok)

/-- Embeds `prev_state.get("apps", {})` plus the `isinstance(.., dict)` guard of
`format_new_bad_only_report`. -/
def prevAppsOf (prev_state : List (String × Json)) : List (String × Json) :=
  match dictGet prev_state "apps" with
  | some (Json.obj afs) => afs
  | _ => []

/-- Embeds `prev_ok` for one stable key: `True` when the key is absent, when the
stored entry is not a dict, or when the stored `ok` field is absent or
truthy; `False` only when an entry exists whose `ok` field is falsy. -/
def prevOk (prev_apps : List (String × Json)) (key : String) : Bool :=
  match dictGet prev_apps key with
  | some (Json.obj pfs) =>
      match dictGet pfs "ok" with
      | some v => v.truthy
      | none => true
  | some _ => true
  | none => true

/-- The `new_bad` list: failing results whose key was previously ok or unseen. -/
def newBadOf (results : List AppCheckResult) (prev_state : List (String × Json)) :
    List AppCheckResult :=
  (badOf results).filter (fun r => prevOk (prevAppsOf prev_state) r.key)

/-! ## Reporter -/

/-- Embeds `format_report`: full report, one block per target. -/
def format_report (results : List AppCheckResult) (tz_name : String) (now : Int) : String :=
  let total := results.length
  let bad := badOf results
  let ok_cnt := total - bad.length
  let header := [s!"App Store 上架状态监控 - {now_iso tz_name now}",
                 s!"汇总：总数 {total}，正常 {ok_cnt}，异常 {bad.length}",
                 ""]
  let blocks := results.map (fun r =>
    let c := r.check
    let status := if c.ok then "OK" else "FAIL"
    let hs := match c.http_status with
      | none => ""
      | some n => s!" http={n}"
    let base := [summary_line r now,
                 s!"- {status}{hs} {c.detail}",
                 s!"- URL {r.store_url}"]
    let la := match r.listed_at with
      | some d => [s!"- 上架时间 listed_at: {renderDateTimeTz d}"]
      | none => []
    base ++ la ++ [""])
  pyStrip (String.intercalate "\n" (header ++ blocks.flatten))

/-- Per-bad-target block shared by the bad-only and new-bad reports. -/
def badBlock (r : AppCheckResult) (now : Int) : List String :=
  let c := r.check
  let dur := match r.listed_at with
    | some la =>
        let td := format_timedelta (now - la.toEpoch)
        s!"（{td}）"
    | none => ""
  let la_line := match r.listed_at with
    | some la => [s!"- 上架时间：{renderDateOnly la}"]
    | none => []
  [s!"❌ 异常 {r.name}{dur}", s!"- 地址：{r.store_url}"] ++ la_line ++
    [s!"- 原因：{format_reason c.http_status c.detail}", ""]

/-- Embeds `format_bad_only_report`: header plus one block per failing target. -/
def format_bad_only_report (results : List AppCheckResult) (tz_name : String)
    (now : Int) : String :=
  let bad := badOf results
  let header := [s!"App Store 上架状态监控 - {now_iso tz_name now}",
                 s!"异常 {bad.length} / 总数 {results.length}",
                 ""]
  pyStrip (String.intercalate "\n" (header ++ (bad.map (fun r => badBlock r now)).flatten))

/-- Embeds `format_new_bad_only_report`: returns the text together with the
`new_bad` and `bad` lists.  When nothing is newly bad the text falls back
to a plain listing of the still-bad targets. -/
def format_new_bad_only_report (results : List AppCheckResult) (tz_name : String)
    (prev_state : List (String × Json)) (now : Int) :
    String × List AppCheckResult × List AppCheckResult :=
  let bad := badOf results
  let new_bad := newBadOf results prev_state
  let header := [s!"App Store 上架状态监控 - {now_iso tz_name now}",
                 s!"新增异常 {new_bad.length} / 当前异常 {bad.length} / 总数 {results.length}",
                 ""]
  if new_bad.isEmpty then
    let still :=
      if bad.isEmpty then []
      else ["", "当前仍异常的 App："] ++
        bad.map (fun r => s!"- {r.name}：{format_reason r.check.http_status r.check.detail}")
    (pyStrip (String.intercalate "\n" (header ++ ["本次没有新增异常（异常项可能已在之前的运行中告警过）。"] ++ still ++ [""])),
      new_bad, bad)
  else
    (pyStrip (String.intercalate "\n" (header ++ (new_bad.map (fun r => badBlock r now)).flatten)),
      new_bad, bad)

/-! ## StateStore -/

/-- The per-target JSON record `build_state` stores for one result. -/
def stateEntryJson (r : AppCheckResult) : Json :=
  Json.obj [("name", Json.str r.name),
            ("app_id", Json.str r.app_id),
            ("store_url", Json.str r.store_url),
            ("ok", Json.bool r.ok),
            ("http_status", match r.check.http_status with
              | some n => Json.num n
              | none => Json.null),
            ("detail", Json.str r.check.detail)]

/-- The `apps` dict of `build_state`: one entry per stable key, written in
result order, later results overwriting earlier ones with the same key. -/
def buildStateApps (results : List AppCheckResult) : List (String × Json) :=
  results.foldl (fun apps r => assocSet apps r.key (stateEntryJson r)) []

/-- Embeds `build_state`: full state snapshot of one run. -/
def build_state (results : List AppCheckResult) (now : Int) : Json :=
  Json.obj [("updated_at_utc", Json.str (renderCivil now ++ " +0000")),
            ("apps", Json.obj (buildStateApps results))]

/-- Embeds `load_state` applied to parsed file content: `none` stands for a
missing or unparseable file, and non-dict content is discarded; both give
the empty state.  (`json.dump` + `json.load` round-trip the stored value,
so the file is modelled by the `Json` value written to it.) -/
def loadStateJson : Option Json → List (String × Json)
  | some (Json.obj fs) => fs
  | _ => []

/-- Embeds `load_state` including the empty-`STATE_FILE` guard. -/
def loadStateD (state_file : String) (file : Option Json) : List (String × Json) :=
  if state_file = "" then [] else loadStateJson file

/-! ## Prober / Retrier (`check_one_app`) -/

/-- Outcome triple returned by `store_page_probe` for one attempt.  The
probe itself is network I/O; a run is modelled relative to a function
giving the classified outcome of each attempt. -/
structure ProbeOut where
  ok : Bool
  http_status : Option Int
  detail : String
deriving DecidableEq, Repr

/-- The `UrlCheck` built from one probe outcome. -/
def urlCheckOf (url : String) (p : ProbeOut) : UrlCheck :=
  { url := url, ok := p.ok, http_status := p.http_status, detail := p.detail }

/-- The retry loop of `check_one_app`: attempt indices actually probed,
starting at `a` with `n` loop iterations remaining, breaking after the
first successful attempt. -/
def runAttempts (probe : Nat → ProbeOut) : Nat → Nat → List Nat
  | 0, _ => []
  | n + 1, a => a :: (if (probe a).ok then [] else runAttempts probe n (a + 1))

/-- Attempt indices probed by `check_one_app` for `range(retries + 1)`. -/
def attemptsPerformed (probe : Nat → ProbeOut) (retries : Int) : List Nat :=
  runAttempts probe (retries + 1).toNat 0

/-- A monitored target as normalized by `load_apps`. -/
structure App where
  name : String
  app_id : String
  store_url : String
  listed_at : Option DateTime
deriving DecidableEq, Repr

/-- Embeds `check_one_app`: run the retry loop and return the outcome
of the last attempt; the `"未知错误"` fallback covers the case where the loop body
never ran (empty `range`). -/
def check_one_app (probe : Nat → ProbeOut) (app : App) (retries : Int) : AppCheckResult :=
  let check :=
    match (attemptsPerformed probe retries).getLast? with
    | some a => urlCheckOf app.store_url (probe a)
    | none => { url := app.store_url, ok := false, http_status := none, detail := "未知错误" }
  { name := app.name, app_id := app.app_id, store_url := app.store_url,
    listed_at := app.listed_at, check := check }

/-! ## `load_apps` and `parse_listed_at` -/

/-- Take at most `n` leading ASCII digits. -/
def takeDigitsUpTo : Nat → List Char → List Char × List Char
  | 0, cs => ([], cs)
  | _ + 1, [] => ([], [])
  | n + 1, c :: cs =>
      if c.isDigit then
        let p := takeDigitsUpTo n cs
        (c :: p.1, p.2)
      else ([], c :: cs)

/-- Numeric value of a digit run. -/
def digitsToNat (ds : List Char) : Nat :=
  ds.foldl (fun a c => a * 10 + (c.toNat - '0'.toNat)) 0

/-- strptime two-digit-at-most field (`%m`, `%d`, `%H`, `%M`, `%S` accept
one or two digits). -/
def take2 (cs : List Char) : Option (Nat × List Char) :=
  let p := takeDigitsUpTo 2 cs
  if p.1.isEmpty then none else some (digitsToNat p.1, p.2)

/-- strptime `%Y` field: exactly four digits. -/
def take4 (cs : List Char) : Option (Nat × List Char) :=
  let p := takeDigitsUpTo 4 cs
  if p.1.length = 4 then some (digitsToNat p.1, p.2) else none

/-- Consume one expected literal character. -/
def expectChar (c : Char) : List Char → Option (List Char)
  | [] => none
  | x :: xs => if x = c then some xs else none

/-- strptime `%z` field: `Z`, or a sign, two hour digits, an optional
colon and two minute digits (minutes below 60); `timezone` additionally
requires the offset magnitude to be under 24 hours.  (The rarely used
seconds/fraction suffix of `%z` is not modelled.) -/
def takeTz (cs : List Char) : Option (Int × List Char) :=
  match cs with
  | 'Z' :: rest => some (0, rest)
  | c :: rest =>
      if c = '+' ∨ c = '-' then
        match take2 rest with
        | some (hh, rest1) =>
            (fun cont =>
              match cont with
              | some (mm, rest2) =>
                  if mm ≤ 59 ∧ hh * 3600 + mm * 60 < 24 * 3600 then
                    let off : Int := (hh * 3600 + mm * 60 : Nat)
                    some (if c = '-' then -off else off, rest2)
                  else none
              | none => none)
            (match rest1 with
              | ':' :: rest1' => take2 rest1'
              | _ => take2 rest1)
        | none => none
      else none
  | [] => none

/-- The `%Y-%m-%d` part shared by all three accepted formats. -/
def takeDatePart (cs : List Char) : Option (Nat × Nat × Nat × List Char) :=
  match take4 cs with
  | some (y, cs1) =>
      match expectChar '-' cs1 with
      | some cs2 =>
          match take2 cs2 with
          | some (m, cs3) =>
              match expectChar '-' cs3 with
              | some cs4 =>
                  match take2 cs4 with
                  | some (d, cs5) => some (y, m, d, cs5)
                  | none => none
              | none => none
          | none => none
      | none => none
  | none => none

/-- The `" %H:%M:%S"` part of the date-time formats. -/
def takeTimePart (cs : List Char) : Option (Nat × Nat × Nat × List Char) :=
  match expectChar ' ' cs with
  | some cs1 =>
      match take2 cs1 with
      | some (h, cs2) =>
          match expectChar ':' cs2 with
          | some cs3 =>
              match take2 cs3 with
              | some (mi, cs4) =>
                  match expectChar ':' cs4 with
                  | some cs5 =>
                      match take2 cs5 with
                      | some (s, cs6) => some (h, mi, s, cs6)
                      | none => none
                  | none => none
              | none => none
          | none => none
      | none => none
  | none => none

/-- Field validation applied by the `datetime` constructor after a
successful strptime match. -/
def validCivil (y : Nat) (m d h mi s : Nat) : Bool :=
  1 ≤ y && 1 ≤ m && m ≤ 12 && 1 ≤ d && d ≤ daysInMonth (y : Int) m &&
    h ≤ 23 && mi ≤ 59 && s ≤ 59

/-- Format `"%Y-%m-%d %H:%M:%S %z"`. -/
def tryFmtZ (s : String) : Option DateTime :=
  match takeDatePart s.toList with
  | some (y, m, d, cs1) =>
      match takeTimePart cs1 with
      | some (h, mi, sec, cs2) =>
          match expectChar ' ' cs2 with
          | some cs3 =>
              match takeTz cs3 with
              | some (off, []) =>
                  if validCivil y m d h mi sec then
                    some ⟨(y : Int), m, d, h, mi, sec, off⟩
                  else none
              | _ => none
          | none => none
      | none => none
  | none => none

/-- Format `"%Y-%m-%d %H:%M:%S"` (default timezone attached). -/
def tryFmtNoZ (tzOff : Int) (s : String) : Option DateTime :=
  match takeDatePart s.toList with
  | some (y, m, d, cs1) =>
      match takeTimePart cs1 with
      | some (h, mi, sec, []) =>
          if validCivil y m d h mi sec then
            some ⟨(y : Int), m, d, h, mi, sec, tzOff⟩
          else none
      | _ => none
  | none => none

/-- Format `"%Y-%m-%d"` (midnight, default timezone attached). -/
def tryFmtDate (tzOff : Int) (s : String) : Option DateTime :=
  match takeDatePart s.toList with
  | some (y, m, d, []) =>
      if validCivil y m d 0 0 0 then some ⟨(y : Int), m, d, 0, 0, 0, tzOff⟩ else none
  | _ => none

/-- Embeds `parse_listed_at`: `None`/blank gives no date; otherwise the three
fixed formats are tried in order, and failure of all of them is a
`ValueError`. -/
def parse_listed_at (tz_name : String) (value : Json) : Except String (Option DateTime) :=
  match value with
  | Json.null => Except.ok none
  | v =>
      let s := pyStrip (pyStr v)
      if s = "" then Except.ok none
      else
        let tzOff := tzOffsetFor tz_name
        match tryFmtZ s <|> tryFmtNoZ tzOff s <|> tryFmtDate tzOff s with
        | some dt => Except.ok (some dt)
        | none => Except.error s!"listed_at 格式不支持: {s}"

/-- One-entry validation of `load_apps`: type check, then the name,
app-id and URL checks in order, then `parse_listed_at`. -/
def validateEntry (tz_name : String) (idx : Nat) (raw : Json) : Except String App :=
  match raw with
  | Json.obj fs =>
      let name := pyStrip (pyStr (dictGetD fs "name" (Json.str "")))
      let app_id := pyStrip (pyStr (dictGetD fs "app_id" (Json.str "")))
      let store_url := pyStrip (pyStr (dictGetD fs "store_url" (Json.str "")))
      let listed_at_raw := dictGetD fs "listed_at" Json.null
      if name = "" then Except.error s!"apps[{idx}].name 不能为空"
      else if !pyIsDigit app_id then
        Except.error s!"apps[{idx}].app_id 必须是数字字符串，例如 6756509310"
      else if store_url = "" then Except.error s!"apps[{idx}].store_url 不能为空"
      else if !(strStartsWith store_url "https://" || strStartsWith store_url "http://") then
        Except.error s!"apps[{idx}].store_url 必须是 http(s) URL"
      else
        match parse_listed_at tz_name listed_at_raw with
        | Except.error e => Except.error e
        | Except.ok la =>
            Except.ok { name := name, app_id := app_id, store_url := store_url,
                        listed_at := la }
  | _ => Except.error s!"apps[{idx}] 必须是对象"

/-- The validation loop of `load_apps`: first error aborts the run. -/
def loadAppsAux (tz_name : String) : Nat → List Json → Except String (List App)
  | _, [] => Except.ok []
  | idx, raw :: rest =>
      match validateEntry tz_name idx raw with
      | Except.error e => Except.error e
      | Except.ok app =>
          match loadAppsAux tz_name (idx + 1) rest with
          | Except.error e => Except.error e
          | Except.ok apps => Except.ok (app :: apps)

/-- Embeds `load_apps` applied to the parsed top-level array. -/
def load_apps (tz_name : String) (entries : List Json) : Except String (List App) :=
  loadAppsAux tz_name 0 entries

/-! ## `main`: one run, modelled as an event trace plus an exit code -/

/-- Configuration surface of one run (environment variables), plus the
outcome of the external notification transport. -/
structure RunConfig where
  tz_name : String
  retries : Int
  alert_mode : String
  state_file : String
  /-- The `ok` flag returned by `notify` for the report sent in this run. -/
  notifyOk : Bool
deriving DecidableEq, Repr

/-- Externally observable actions of one run, in program order. -/
inductive Event where
  /-- One `store_page_probe` network call for app `appIdx`, attempt `attempt`. -/
  | probeAttempt (appIdx : Nat) (attempt : Nat)
  /-- The `load_state(state_file)` read of the persisted prior state. -/
  | loadPrevState
  /-- The `notify(report)` call on the notification channel. -/
  | notifySend (report : String)
  /-- The `save_state(state_file, st)` overwrite of the state file. -/
  | saveState (st : Json)

/-- Whether an event is the state-file overwrite. -/
def isSaveEvent : Event → Bool
  | Event.saveState _ => true
  | _ => false

/-- Result of one `main` invocation: its event trace and its exit code
(`none` when an exception such as a `load_apps` validation error
propagated out of `main`). -/
structure RunOutcome where
  events : List Event
  exit : Option Int

/-- The result list `main` accumulates: `check_one_app` over the loaded
targets in order, app `i` probed through `probe i`. -/
def resultsOf (apps : List App) (probe : Nat → Nat → ProbeOut) (retries : Int) :
    List AppCheckResult :=
  apps.enum.map (fun p => check_one_app (probe p.1) p.2 retries)

/-- Probe network calls of the checking loop, in order. -/
def probeEventsOf (apps : List App) (probe : Nat → Nat → ProbeOut) (retries : Int) :
    List Event :=
  (List.range apps.length).flatMap
    (fun i => (attemptsPerformed (probe i) retries).map (Event.probeAttempt i))

/-- The `save_state` call (no write when `STATE_FILE` is empty). -/
def saveEventsOf (cfg : RunConfig) (results : List AppCheckResult) (now : Int) :
    List Event :=
  if cfg.state_file = "" then [] else [Event.saveState (build_state results now)]

/-- The body of `main` after `load_apps` succeeded: the checking loop,
the alert/notify decision, the state overwrite and the exit code, branch
for branch as in the source. -/
def runAfterLoad (cfg : RunConfig) (apps : List App) (probe : Nat → Nat → ProbeOut)
    (prevFile : Option Json) (now : Int) : RunOutcome :=
  let results := resultsOf apps probe cfg.retries
  let pEvents := probeEventsOf apps probe cfg.retries
  let saveEv := saveEventsOf cfg results now
  let bad := badOf results
  if bad.isEmpty then
    { events := pEvents ++ saveEv, exit := some 0 }
  else if cfg.alert_mode = "transition" then
    let prev_state := loadStateD cfg.state_file prevFile
    let t := format_new_bad_only_report results cfg.tz_name prev_state now
    if t.2.1.isEmpty then
      { events := pEvents ++ [Event.loadPrevState] ++ saveEv, exit := some 0 }
    else
      { events := pEvents ++ [Event.loadPrevState, Event.notifySend t.1] ++ saveEv,
        exit := some (if cfg.notifyOk then 0 else 2) }
  else
    { events := pEvents ++ [Event.notifySend (format_bad_only_report results cfg.tz_name now)] ++ saveEv,
      exit := some 2 }

/-- Embeds `main`: `load_apps` first (a validation error propagates and aborts
the run before any probe), then the run body. -/
def mainRun (cfg : RunConfig) (entries : List Json) (probe : Nat → Nat → ProbeOut)
    (prevFile : Option Json) (now : Int) : RunOutcome :=
  match load_apps cfg.tz_name entries with
  | Except.error _ => { events := [], exit := none }
  | Except.ok apps => runAfterLoad cfg apps probe prevFile now

/-! ## Helper lemmas about dicts -/

lemma dictGet_assocSet_self : ∀ (fs : List (String × Json)) (k : String) (v : Json),
    dictGet (assocSet fs k v) k = some v := by
  intro fs k v
  induction fs with
  | nil => simp [assocSet, dictGet]
  | cons p rest ih =>
      obtain ⟨k1, v1⟩ := p
      by_cases h : k1 = k
      · simp [assocSet, h, dictGet]
      · simp [assocSet, h, dictGet, ih]

lemma dictGet_assocSet_ne : ∀ (fs : List (String × Json)) (k : String) (v : Json)
    (k' : String), k' ≠ k → dictGet (assocSet fs k v) k' = dictGet fs k' := by
  intro fs k v k' hne
  induction fs with
  | nil => simp [assocSet, dictGet, Ne.symm hne]
  | cons p rest ih =>
      obtain ⟨k1, v1⟩ := p
      by_cases h : k1 = k
      · subst h
        simp [assocSet, dictGet, Ne.symm hne]
      · by_cases h2 : k1 = k'
        · subst h2
          simp [assocSet, dictGet, h, hne]
        · simp [assocSet, h, dictGet, h2, ih]

lemma dictGet_mem : ∀ (fs : List (String × Json)) (k : String) (v : Json),
    dictGet fs k = some v → (k, v) ∈ fs := by
  intro fs k v
  induction fs with
  | nil => intro h; cases h
  | cons p rest ih =>
      obtain ⟨k1, v1⟩ := p
      intro h
      by_cases hk : k1 = k
      · subst hk
        simp [dictGet] at h
        subst h
        exact List.mem_cons_self _ _
      · simp [dictGet, hk] at h
        exact List.mem_cons_of_mem _ (ih h)

lemma dictGet_buildAux_not_mem (results : List AppCheckResult) :
    ∀ (acc : List (String × Json)) (k : String),
      (∀ r ∈ results, r.key ≠ k) →
      dictGet (results.foldl (fun apps r => assocSet apps r.key (stateEntryJson r)) acc) k
        = dictGet acc k := by
  induction results with
  | nil => intro acc k _; rfl
  | cons r rs ih =>
      intro acc k h
      simp only [List.foldl_cons]
      rw [ih _ _ (fun r' hr' => h r' (List.mem_cons_of_mem _ hr'))]
      exact dictGet_assocSet_ne _ _ _ _ (Ne.symm (h r (List.mem_cons_self _ _)))

lemma dictGet_buildAux_mem (results : List AppCheckResult) :
    ∀ (acc : List (String × Json)) (r : AppCheckResult), r ∈ results →
      (results.map AppCheckResult.key).Nodup →
      dictGet (results.foldl (fun apps r => assocSet apps r.key (stateEntryJson r)) acc) r.key
        = some (stateEntryJson r) := by
  induction results with
  | nil => intro acc r hr; cases hr
  | cons x xs ih =>
      intro acc r hr hnd
      rw [List.map_cons, List.nodup_cons] at hnd
      simp only [List.foldl_cons]
      rcases List.mem_cons.mp hr with rfl | hr'
      · rw [dictGet_buildAux_not_mem xs _ _ (fun r' hr' hkey => by
          exact hnd.1 (hkey ▸ List.mem_map_of_mem AppCheckResult.key hr' :
            r.key ∈ xs.map AppCheckResult.key))]
        exact dictGet_assocSet_self _ _ _
      · exact ih _ r hr' hnd.2

lemma dictGet_buildStateApps (results : List AppCheckResult) (r : AppCheckResult)
    (hr : r ∈ results) (hnd : (results.map AppCheckResult.key).Nodup) :
    dictGet (buildStateApps results) r.key = some (stateEntryJson r) :=
  dictGet_buildAux_mem results [] r hr hnd

/-! ## Helper lemmas about the retry loop -/

lemma runAttempts_all_fail (probe : Nat → ProbeOut) :
    ∀ (n a : Nat), (∀ j, j < n → (probe (a + j)).ok = false) →
      runAttempts probe n a = List.range' a n := by
  intro n
  induction n with
  | zero => intro a _; rfl
  | succ n ih =>
      intro a h
      have h0 : (probe a).ok = false := by simpa using h 0 (Nat.succ_pos n)
      have hrest : ∀ j, j < n → (probe (a + 1 + j)).ok = false := by
        intro j hj
        have := h (j + 1) (by omega)
        rw [show a + 1 + j = a + (j + 1) by omega]
        exact this
      rw [List.range'_succ]
      simp only [runAttempts, h0, Bool.false_eq_true, if_false, ih (a + 1) hrest]

lemma runAttempts_first_success (probe : Nat → ProbeOut) :
    ∀ (k n a : Nat), k < n → (probe (a + k)).ok = true →
      (∀ j, j < k → (probe (a + j)).ok = false) →
      runAttempts probe n a = List.range' a (k + 1) := by
  intro k
  induction k with
  | zero =>
      intro n a hk hs _
      obtain ⟨n', rfl⟩ : ∃ n', n = n' + 1 := ⟨n - 1, by omega⟩
      have hs' : (probe a).ok = true := by simpa using hs
      simp only [runAttempts, hs', if_true, List.range'_succ, List.range'_zero]
  | succ k ih =>
      intro n a hk hs hf
      obtain ⟨n', rfl⟩ : ∃ n', n = n' + 1 := ⟨n - 1, by omega⟩
      have h0 : (probe a).ok = false := by simpa using hf 0 (by omega)
      have hs' : (probe (a + 1 + k)).ok = true := by
        rw [show a + 1 + k = a + (k + 1) by omega]; exact hs
      have hf' : ∀ j, j < k → (probe (a + 1 + j)).ok = false := by
        intro j hj
        rw [show a + 1 + j = a + (j + 1) by omega]
        exact hf (j + 1) (by omega)
      rw [List.range'_succ]
      simp only [runAttempts, h0, Bool.false_eq_true, if_false,
        ih n' (a + 1) (by omega) hs' hf']

lemma runAttempts_mem_lt (probe : Nat → ProbeOut) :
    ∀ (n a x : Nat), x ∈ runAttempts probe n a → a ≤ x ∧ x < a + n := by
  intro n
  induction n with
  | zero => intro a x h; cases h
  | succ n ih =>
      intro a x h
      simp only [runAttempts] at h
      rcases List.mem_cons.mp h with rfl | h'
      · omega
      · by_cases hok : (probe a).ok = true
        · rw [if_pos hok] at h'; cases h'
        · rw [if_neg hok] at h'
          have := ih (a + 1) x h'
          omega

lemma attemptsPerformed_toNat (probe : Nat → ProbeOut) (retries : Int) (hr : 0 ≤ retries) :
    attemptsPerformed probe retries = runAttempts probe (retries.toNat + 1) 0 := by
  unfold attemptsPerformed
  congr 1
  omega

lemma getLast?_range' (a n : Nat) : (List.range' a (n + 1)).getLast? = some (a + n) := by
  rw [List.range'_1_concat]
  exact List.getLast?_concat _

/-- C3: `check_one_app` probes in sequence for at most `retries + 1`
attempts; a first success at index `k` stops the loop after exactly the
attempts `0..k` and the returned outcome is that of attempt `k`; when all
attempts fail, all `retries + 1` attempts run and the returned outcome is
that of the last attempt `retries`.  Intermediate failures never appear in
the result. -/
theorem check_one_app_retry_contract (probe : Nat → ProbeOut) (app : App)
    (retries : Int) (hr : 0 ≤ retries) :
    (∀ k, k < (retries + 1).toNat → (probe k).ok = true →
      (∀ j, j < k → (probe j).ok = false) →
      attemptsPerformed probe retries = List.range (k + 1) ∧
      (check_one_app probe app retries).check = urlCheckOf app.store_url (probe k)) ∧
    ((∀ k, k < (retries + 1).toNat → (probe k).ok = false) →
      attemptsPerformed probe retries = List.range ((retries + 1).toNat) ∧
      (check_one_app probe app retries).check = urlCheckOf app.store_url (probe retries.toNat)) := by
  constructor
  · intro k hk hs hf
    have hatt : attemptsPerformed probe retries = List.range (k + 1) := by
      unfold attemptsPerformed
      rw [List.range_eq_range']
      exact runAttempts_first_success probe k _ 0 hk (by simpa using hs)
        (fun j hj => by simpa using hf j hj)
    refine ⟨hatt, ?_⟩
    have hlast : (attemptsPerformed probe retries).getLast? = some k := by
      rw [hatt, List.range_eq_range', getLast?_range']
      simp
    simp only [check_one_app, hlast]
  · intro hf
    obtain ⟨m, hm⟩ : ∃ m, (retries + 1).toNat = m + 1 := ⟨retries.toNat, by omega⟩
    have hatt : attemptsPerformed probe retries = List.range ((retries + 1).toNat) := by
      unfold attemptsPerformed
      rw [List.range_eq_range']
      exact runAttempts_all_fail probe _ 0 (fun j hj => by simpa using hf j hj)
    refine ⟨hatt, ?_⟩
    have hm' : m = retries.toNat := by omega
    have hlast : (attemptsPerformed probe retries).getLast? = some retries.toNat := by
      rw [hatt, List.range_eq_range', hm, getLast?_range', hm']
      simp
    simp only [check_one_app, hlast]

/-- Probe that fails on attempts 0 and succeeds on attempt 1 (used as the
concrete instance for the retry claims). -/
def probeSucc1 : Nat → ProbeOut := fun k =>
  if k = 1 then { ok := true, http_status := some 200, detail := "页面可访问" }
  else { ok := false, http_status := some 503, detail := "页面 HTTP 503（可能是临时网络/限流/风控）" }

/-- Probe that always fails with a 404. -/
def probe404 : Nat → ProbeOut := fun _ =>
  { ok := false, http_status := some 404, detail := "页面 HTTP 404（强信号：可能下架/该区不可用）" }

/-- A valid monitored target. -/
def exApp : App := { name := "A", app_id := "123", store_url := "https://x", listed_at := none }

/-- Witness for the retry contract: with `retries = 2` and a success at
attempt 1, exactly attempts 0 and 1 run and attempt 1 wins. -/
theorem check_one_app_retry_contract_witness :
    attemptsPerformed probeSucc1 2 = List.range 2 ∧
    (check_one_app probeSucc1 exApp 2).check = urlCheckOf exApp.store_url (probeSucc1 1) :=
  (check_one_app_retry_contract probeSucc1 exApp 2 (by decide)).1 1 (by decide) rfl
    (by decide)

/-- C10: for `retries ≥ 0` the loop of `check_one_app` runs at least one
probe attempt, and the returned outcome is that of an actual attempt (the
last one performed); the `"未知错误"` fallback branch for an empty attempt
list is therefore not taken. -/
theorem check_one_app_probes_at_least_once (probe : Nat → ProbeOut) (app : App)
    (retries : Int) (hr : 0 ≤ retries) :
    attemptsPerformed probe retries ≠ [] ∧
    ∃ k, k ≤ retries.toNat ∧
      (attemptsPerformed probe retries).getLast? = some k ∧
      (check_one_app probe app retries).check = urlCheckOf app.store_url (probe k) := by
  have hne : attemptsPerformed probe retries ≠ [] := by
    rw [attemptsPerformed_toNat probe retries hr]
    simp only [runAttempts]
    exact List.cons_ne_nil _ _
  refine ⟨hne, ?_⟩
  obtain ⟨k, hk⟩ : ∃ k, (attemptsPerformed probe retries).getLast? = some k := by
    cases h : (attemptsPerformed probe retries).getLast? with
    | none => exact absurd (List.getLast?_eq_none_iff.mp h) hne
    | some k => exact ⟨k, rfl⟩
  have hmem : k ∈ attemptsPerformed probe retries := List.mem_of_mem_getLast? hk
  have hlt : k ≤ retries.toNat := by
    rw [attemptsPerformed_toNat probe retries hr] at hmem
    have := runAttempts_mem_lt probe _ 0 k hmem
    omega
  exact ⟨k, hlt, hk, by simp only [check_one_app, hk]⟩

/-- Witness: with `retries = 0` and an always-failing probe, one attempt
runs and its 404 outcome is returned. -/
theorem check_one_app_probes_at_least_once_witness :
    attemptsPerformed probe404 0 ≠ [] ∧
    ∃ k, k ≤ (0 : Int).toNat ∧
      (attemptsPerformed probe404 0).getLast? = some k ∧
      (check_one_app probe404 exApp 0).check = urlCheckOf exApp.store_url (probe404 k) :=
  check_one_app_probes_at_least_once probe404 exApp 0 (by decide)

/-! ## AlertEngine claims -/

lemma prevOk_true_iff (prev_apps : List (String × Json)) (key : String)
    (hwf : ∀ k v, (k, v) ∈ prev_apps →
      ∃ fs b, v = Json.obj fs ∧ dictGet fs "ok" = some (Json.bool b)) :
    prevOk prev_apps key = true ↔
      (dictGet prev_apps key = none ∨
        ∃ fs, dictGet prev_apps key = some (Json.obj fs) ∧
          dictGet fs "ok" = some (Json.bool true)) := by
  cases h : dictGet prev_apps key with
  | none => simp [prevOk, h]
  | some v =>
      obtain ⟨fs, b, rfl, hok⟩ := hwf key v (dictGet_mem _ _ _ h)
      simp only [prevOk, h, hok]
      cases b with
      | true => exact ⟨fun _ => Or.inr ⟨fs, rfl, hok⟩, fun _ => rfl⟩
      | false =>
          refine ⟨fun hc => absurd hc (by simp [Json.truthy]), fun hc => ?_⟩
          rcases hc with hc | ⟨fs', hfs', hok'⟩
          · cases hc
          · obtain rfl : fs = fs' := by
              injection hfs' with h1
              injection h1
            rw [hok] at hok'
            cases hok'

/-- C1: for a prior state whose `apps` entries are well formed (each a
dict with a boolean `ok` field, as this program persists them), `new_bad`
contains exactly the failing current results whose stable key is unseen in
the prior state or has a prior entry with `ok = true`; a failing result
whose key has a prior entry with `ok = false` is excluded. -/
theorem new_bad_membership (results : List AppCheckResult)
    (prev_state prev_apps : List (String × Json)) (r : AppCheckResult)
    (happs : dictGet prev_state "apps" = some (Json.obj prev_apps))
    (hwf : ∀ k v, (k, v) ∈ prev_apps →
      ∃ fs b, v = Json.obj fs ∧ dictGet fs "ok" = some (Json.bool b)) :
    r ∈ newBadOf results prev_state ↔
      (r ∈ results ∧ r.ok = false ∧
        (dictGet prev_apps r.key = none ∨
          ∃ fs, dictGet prev_apps r.key = some (Json.obj fs) ∧
            dictGet fs "ok" = some (Json.bool true))) := by
  have hpa : prevAppsOf prev_state = prev_apps := by
    rw [prevAppsOf, happs]
  rw [newBadOf, badOf, hpa, List.mem_filter, List.mem_filter,
    prevOk_true_iff prev_apps r.key hwf]
  simp only [Bool.not_eq_true', and_assoc]

/-- Failing result for app id 1 (already failing in the prior state). -/
def exA : AppCheckResult :=
  { name := "A", app_id := "1", store_url := "https://a", listed_at := none,
    check := { url := "https://a", ok := false, http_status := some 404,
               detail := "页面 HTTP 404（强信号：可能下架/该区不可用）" } }

/-- Failing result for app id 2 (unseen in the prior state). -/
def exB : AppCheckResult :=
  { name := "B", app_id := "2", store_url := "https://b", listed_at := none,
    check := { url := "https://b", ok := false, http_status := some 404,
               detail := "页面 HTTP 404（强信号：可能下架/该区不可用）" } }

/-- Prior `apps` mapping with a known-bad entry for A only. -/
def exPrevApps : List (String × Json) :=
  [("1|https://a", Json.obj [("ok", Json.bool false)])]

/-- Prior persisted state `{A: ok=false}`. -/
def exPrev : List (String × Json) := [("apps", Json.obj exPrevApps)]

/-- Witness for the C1 membership characterization at the concrete example
of the spec: with prior state `{A: ok=false}` and both A and B currently
failing, `new_bad = [B]`. -/
theorem new_bad_membership_witness :
    newBadOf [exA, exB] exPrev = [exB] ∧ exB ∈ newBadOf [exA, exB] exPrev :=
  ⟨rfl,
    (new_bad_membership [exA, exB] exPrev exPrevApps exB rfl
      (by
        intro k v hv
        rw [exPrevApps, List.mem_singleton] at hv
        obtain ⟨rfl, rfl⟩ := Prod.mk.injEq .. ▸ hv
        exact ⟨[("ok", Json.bool false)], false, rfl, rfl⟩)).mpr
      ⟨by simp, rfl, Or.inl rfl⟩⟩

/-- C5: `new_bad` is a subset of `bad`, and `bad` is a subset of the
result set of the run. -/
theorem new_bad_subset_bad_subset_results (results : List AppCheckResult)
    (prev_state : List (String × Json)) :
    (∀ r, r ∈ newBadOf results prev_state → r ∈ badOf results) ∧
    (∀ r, r ∈ badOf results → r ∈ results) := by
  constructor
  · intro r hr
    exact (List.mem_filter.mp hr).1
  · intro r hr
    exact (List.mem_filter.mp hr).1

/-- Witness for C5 at a concrete run with one failing target. -/
theorem new_bad_subset_bad_subset_results_witness :
    exB ∈ badOf [exB] ∧ exB ∈ [exB] :=
  ⟨(new_bad_subset_bad_subset_results [exB] []).1 exB (by decide),
   (new_bad_subset_bad_subset_results [exB] []).2 exB (by decide)⟩

/-- C6: the `new_bad` computation is a pure, deterministic function of the
current results and the loaded prior state: two evaluations on identical
inputs agree. -/
theorem new_bad_deterministic (results1 results2 : List AppCheckResult)
    (prev1 prev2 : List (String × Json))
    (hres : results1 = results2) (hprev : prev1 = prev2) :
    newBadOf results1 prev1 = newBadOf results2 prev2 := by
  rw [hres, hprev]

/-- Witness for C6 at the concrete example state. -/
theorem new_bad_deterministic_witness :
    newBadOf [exA, exB] exPrev = newBadOf [exA, exB] exPrev :=
  new_bad_deterministic [exA, exB] [exA, exB] exPrev exPrev rfl rfl

/-! ## Reporter claims -/

/-- C9: the three report formatters are pure functions of the result set,
the timezone name, the clock reading and (for the new-bad report) the
loaded prior state: two invocations on identical inputs produce identical
text.  (The ambient clock read by `_now_iso` / `datetime.now` is the
explicit `now` input of the embedding.) -/
theorem reporters_deterministic (results1 results2 : List AppCheckResult)
    (tz1 tz2 : String) (now1 now2 : Int) (prev1 prev2 : List (String × Json))
    (hres : results1 = results2) (htz : tz1 = tz2) (hnow : now1 = now2)
    (hprev : prev1 = prev2) :
    format_report results1 tz1 now1 = format_report results2 tz2 now2 ∧
    format_bad_only_report results1 tz1 now1 = format_bad_only_report results2 tz2 now2 ∧
    format_new_bad_only_report results1 tz1 prev1 now1
      = format_new_bad_only_report results2 tz2 prev2 now2 := by
  rw [hres, htz, hnow, hprev]
  exact ⟨rfl, rfl, rfl⟩

/-- Witness for C9 at a concrete result set, timezone and clock value. -/
theorem reporters_deterministic_witness :
    format_report [exA, exB] "UTC" 1700000000 = format_report [exA, exB] "UTC" 1700000000 ∧
    format_bad_only_report [exA, exB] "UTC" 1700000000
      = format_bad_only_report [exA, exB] "UTC" 1700000000 ∧
    format_new_bad_only_report [exA, exB] "UTC" exPrev 1700000000
      = format_new_bad_only_report [exA, exB] "UTC" exPrev 1700000000 :=
  reporters_deterministic [exA, exB] [exA, exB] "UTC" "UTC" 1700000000 1700000000
    exPrev exPrev rfl rfl rfl rfl

/-! ## StateStore round trip (C7) -/

/-- C7: the state built by `build_state` from a run's results, written by
`save_state` and read back by `load_state`, reproduces for every stable
key the `name`, `app_id`, `store_url`, `ok`, `http_status` and `detail`
fields of the corresponding result (keys assumed pairwise distinct, as
distinct targets have distinct id+url pairs). -/
theorem save_load_round_trip (results : List AppCheckResult) (now : Int)
    (hkeys : (results.map AppCheckResult.key).Nodup) :
    ∀ r ∈ results,
      ∃ e, dictGet (prevAppsOf (loadStateJson (some (build_state results now)))) r.key
              = some (Json.obj e) ∧
        dictGet e "name" = some (Json.str r.name) ∧
        dictGet e "app_id" = some (Json.str r.app_id) ∧
        dictGet e "store_url" = some (Json.str r.store_url) ∧
        dictGet e "ok" = some (Json.bool r.ok) ∧
        dictGet e "http_status" = some (match r.check.http_status with
          | some n => Json.num n
          | none => Json.null) ∧
        dictGet e "detail" = some (Json.str r.check.detail) := by
  intro r hr
  have hload : prevAppsOf (loadStateJson (some (build_state results now)))
      = buildStateApps results := by
    simp [prevAppsOf, loadStateJson, build_state, dictGet]
  refine ⟨[("name", Json.str r.name), ("app_id", Json.str r.app_id),
           ("store_url", Json.str r.store_url), ("ok", Json.bool r.ok),
           ("http_status", match r.check.http_status with
             | some n => Json.num n
             | none => Json.null),
           ("detail", Json.str r.check.detail)], ?_, rfl, rfl, rfl, rfl, rfl, rfl⟩
  rw [hload]
  exact dictGet_buildStateApps results r hr hkeys

/-- Witness for C7: round trip of a single-result run. -/
theorem save_load_round_trip_witness :
    ∃ e, dictGet (prevAppsOf (loadStateJson (some (build_state [exA] 1700000000)))) exA.key
            = some (Json.obj e) ∧
      dictGet e "name" = some (Json.str exA.name) ∧
      dictGet e "app_id" = some (Json.str exA.app_id) ∧
      dictGet e "store_url" = some (Json.str exA.store_url) ∧
      dictGet e "ok" = some (Json.bool exA.ok) ∧
      dictGet e "http_status" = some (match exA.check.http_status with
        | some n => Json.num n
        | none => Json.null) ∧
      dictGet e "detail" = some (Json.str exA.check.detail) :=
  save_load_round_trip [exA] 1700000000 (by decide) exA (by decide)

/-! ## `main` trace claims -/

lemma probeEventsOf_not_save (apps : List App) (probe : Nat → Nat → ProbeOut)
    (retries : Int) :
    ∀ e ∈ probeEventsOf apps probe retries, isSaveEvent e = false := by
  intro e he
  rw [probeEventsOf, List.mem_flatMap] at he
  obtain ⟨i, _, he⟩ := he
  obtain ⟨a, _, rfl⟩ := List.mem_map.mp he
  rfl

/-- C2: after `load_apps` succeeds, every run — clean, always-mode with
failures, transition-mode with or without new failures — emits exactly one
state overwrite, it is the final externally observable action, it writes
the full `build_state` snapshot of the current run's results, and all
prior-state reads and notification sends happen strictly before it. -/
theorem state_saved_last_after_decision (cfg : RunConfig) (apps : List App)
    (probe : Nat → Nat → ProbeOut) (prevFile : Option Json) (now : Int)
    (hsf : cfg.state_file ≠ "") :
    ∃ l, (runAfterLoad cfg apps probe prevFile now).events
          = l ++ [Event.saveState (build_state (resultsOf apps probe cfg.retries) now)] ∧
      ∀ e ∈ l, isSaveEvent e = false := by
  have hsave : saveEventsOf cfg (resultsOf apps probe cfg.retries) now
      = [Event.saveState (build_state (resultsOf apps probe cfg.retries) now)] := by
    rw [saveEventsOf, if_neg hsf]
  have hprobe := probeEventsOf_not_save apps probe cfg.retries
  rw [runAfterLoad]
  by_cases hbad : (badOf (resultsOf apps probe cfg.retries)).isEmpty = true
  · rw [if_pos hbad]
    exact ⟨_, by rw [hsave], hprobe⟩
  · rw [if_neg hbad]
    by_cases hmode : cfg.alert_mode = "transition"
    · rw [if_pos hmode]
      by_cases hnb : (format_new_bad_only_report (resultsOf apps probe cfg.retries)
          cfg.tz_name (loadStateD cfg.state_file prevFile) now).2.1.isEmpty = true
      · rw [if_pos hnb]
        refine ⟨probeEventsOf apps probe cfg.retries ++ [Event.loadPrevState],
          by rw [hsave, List.append_assoc], ?_⟩
        intro e he
        rcases List.mem_append.mp he with h | h
        · exact hprobe e h
        · rw [List.mem_singleton.mp h]; rfl
      · rw [if_neg hnb]
        refine ⟨probeEventsOf apps probe cfg.retries ++
          [Event.loadPrevState, Event.notifySend (format_new_bad_only_report
            (resultsOf apps probe cfg.retries) cfg.tz_name
            (loadStateD cfg.state_file prevFile) now).1],
          by rw [hsave, List.append_assoc], ?_⟩
        intro e he
        rcases List.mem_append.mp he with h | h
        · exact hprobe e h
        · rcases List.mem_cons.mp h with rfl | h
          · rfl
          · rw [List.mem_singleton.mp h]; rfl
    · rw [if_neg hmode]
      refine ⟨probeEventsOf apps probe cfg.retries ++
        [Event.notifySend (format_bad_only_report (resultsOf apps probe cfg.retries)
          cfg.tz_name now)],
        by rw [hsave, List.append_assoc], ?_⟩
      intro e he
      rcases List.mem_append.mp he with h | h
      · exact hprobe e h
      · rw [List.mem_singleton.mp h]; rfl

/-- Always-mode configuration with a configured state file; the flag
selects the notification transport outcome. -/
def cfgAlways (nok : Bool) : RunConfig :=
  { tz_name := "UTC", retries := 0, alert_mode := "always",
    state_file := "state.json", notifyOk := nok }

/-- Per-app probe that always fails with a 404. -/
def probeAll404 : Nat → Nat → ProbeOut := fun _ _ =>
  { ok := false, http_status := some 404, detail := "页面 HTTP 404（强信号：可能下架/该区不可用）" }

/-- Witness for C2 at a concrete always-mode run with one failing target:
the state overwrite is the last event. -/
theorem state_saved_last_after_decision_witness :
    ∃ l, (runAfterLoad (cfgAlways true) [exApp] probeAll404 none 1700000000).events
          = l ++ [Event.saveState (build_state
              (resultsOf [exApp] probeAll404 (cfgAlways true).retries) 1700000000)] ∧
      ∀ e ∈ l, isSaveEvent e = false :=
  state_saved_last_after_decision (cfgAlways true) [exApp] probeAll404 none 1700000000
    (by decide)

lemma format_new_bad_snd (results : List AppCheckResult) (tz : String)
    (prev : List (String × Json)) (now : Int) :
    (format_new_bad_only_report results tz prev now).2.1 = newBadOf results prev := by
  rw [format_new_bad_only_report]
  split <;> rfl

/-- C4 counterexample: in always mode with one failing target the exit
code is 2 even though the notification succeeded (the claim asserts exit 2
exactly when the notification failed), and the exit code is the same 2
when the notification fails, so a successful alert is not distinguishable
from a failed one. -/
theorem exit_code_claim_counterexample :
    (runAfterLoad (cfgAlways true) [exApp] probeAll404 none 0).exit = some 2 ∧
    (cfgAlways true).notifyOk = true ∧
    badOf (resultsOf [exApp] probeAll404 (cfgAlways true).retries) ≠ [] ∧
    (runAfterLoad (cfgAlways false) [exApp] probeAll404 none 0).exit = some 2 := by
  refine ⟨rfl, rfl, ?_, rfl⟩
  decide

/-- C4 (amended): the exit code is 0 or 2; it is 0 exactly when no target
fails, or in transition mode when nothing is newly bad or the notification
succeeded; it is 2 exactly when some target fails and either the mode is
not `transition` (regardless of the notification outcome) or the mode is
`transition`, something is newly bad and the notification failed. -/
theorem exit_code_contract (cfg : RunConfig) (apps : List App)
    (probe : Nat → Nat → ProbeOut) (prevFile : Option Json) (now : Int) :
    ((runAfterLoad cfg apps probe prevFile now).exit = some 0 ∨
      (runAfterLoad cfg apps probe prevFile now).exit = some 2) ∧
    ((runAfterLoad cfg apps probe prevFile now).exit = some 0 ↔
      (badOf (resultsOf apps probe cfg.retries) = [] ∨
        (cfg.alert_mode = "transition" ∧
          (newBadOf (resultsOf apps probe cfg.retries) (loadStateD cfg.state_file prevFile) = []
            ∨ cfg.notifyOk = true)))) ∧
    ((runAfterLoad cfg apps probe prevFile now).exit = some 2 ↔
      (badOf (resultsOf apps probe cfg.retries) ≠ [] ∧
        (cfg.alert_mode ≠ "transition" ∨
          (newBadOf (resultsOf apps probe cfg.retries) (loadStateD cfg.state_file prevFile) ≠ []
            ∧ cfg.notifyOk = false)))) := by
  rw [runAfterLoad]
  by_cases hbad : (badOf (resultsOf apps probe cfg.retries)).isEmpty = true
  · rw [if_pos hbad]
    rw [List.isEmpty_iff] at hbad
    simp [hbad]
  · rw [if_neg hbad]
    rw [List.isEmpty_iff] at hbad
    by_cases hmode : cfg.alert_mode = "transition"
    · rw [if_pos hmode]
      by_cases hnb : (format_new_bad_only_report (resultsOf apps probe cfg.retries)
          cfg.tz_name (loadStateD cfg.state_file prevFile) now).2.1.isEmpty = true
      · rw [if_pos hnb]
        rw [List.isEmpty_iff, format_new_bad_snd] at hnb
        simp [hbad, hmode, hnb]
      · rw [if_neg hnb]
        rw [List.isEmpty_iff, format_new_bad_snd] at hnb
        cases hok : cfg.notifyOk with
        | true => simp [hbad, hmode, hnb, hok]
        | false => simp [hbad, hmode, hnb, hok]
    · rw [if_neg hmode]
      simp [hbad, hmode]

/-! ## `load_apps` fail-fast (C8) -/

/-- A malformed target-list entry as enumerated by the spec: empty name,
non-numeric id string, empty url, url without an `http://` or `https://`
scheme, or an unparseable `listed_at` (all on the stripped string forms of
the fields, as `load_apps` computes them). -/
def malformedEntry (tz_name : String) (raw : Json) : Prop :=
  ∃ fs, raw = Json.obj fs ∧
    (pyStrip (pyStr (dictGetD fs "name" (Json.str ""))) = "" ∨
     pyIsDigit (pyStrip (pyStr (dictGetD fs "app_id" (Json.str "")))) = false ∨
     pyStrip (pyStr (dictGetD fs "store_url" (Json.str ""))) = "" ∨
     ((strStartsWith (pyStrip (pyStr (dictGetD fs "store_url" (Json.str "")))) "https://" = false ∧
       strStartsWith (pyStrip (pyStr (dictGetD fs "store_url" (Json.str "")))) "http://" = false)) ∨
     (∃ e, parse_listed_at tz_name (dictGetD fs "listed_at" Json.null) = Except.error e))

lemma malformed_validateEntry (tz_name : String) (idx : Nat) (raw : Json)
    (h : malformedEntry tz_name raw) :
    ∃ msg, validateEntry tz_name idx raw = Except.error msg := by
  obtain ⟨fs, rfl, hbad⟩ := h
  rw [validateEntry]
  split_ifs with c1 c2 c3 c4
  · exact ⟨_, rfl⟩
  · exact ⟨_, rfl⟩
  · exact ⟨_, rfl⟩
  · exact ⟨_, rfl⟩
  · rcases hbad with h1 | h2 | h3 | h4 | ⟨e, h5⟩
    · exact absurd h1 c1
    · rw [h2] at c2; simp at c2
    · exact absurd h3 c3
    · rw [h4.1, h4.2] at c4; simp at c4
    · rw [h5]
      exact ⟨e, rfl⟩

lemma loadAppsAux_error (tz_name : String) :
    ∀ (entries : List Json) (idx : Nat),
      (∃ raw ∈ entries, malformedEntry tz_name raw) →
      ∃ msg, loadAppsAux tz_name idx entries = Except.error msg := by
  intro entries
  induction entries with
  | nil => rintro idx ⟨raw, h, -⟩; cases h
  | cons x rest ih =>
      rintro idx ⟨raw, hmem, hbad⟩
      rcases List.mem_cons.mp hmem with rfl | hmem'
      · obtain ⟨msg, hmsg⟩ := malformed_validateEntry tz_name idx raw hbad
        exact ⟨msg, by rw [loadAppsAux, hmsg]⟩
      · cases hv : validateEntry tz_name idx x with
        | error m => exact ⟨m, by rw [loadAppsAux, hv]⟩
        | ok app =>
            obtain ⟨msg, hmsg⟩ := ih (idx + 1) ⟨raw, hmem', hbad⟩
            exact ⟨msg, by rw [loadAppsAux, hv, hmsg]⟩

/-- C8: a target list containing a malformed entry makes `load_apps` fail
with a validation error; the run then aborts before the checking loop, so
no network probe event is emitted and no exit code is produced. -/
theorem malformed_apps_fail_fast (cfg : RunConfig) (entries : List Json)
    (probe : Nat → Nat → ProbeOut) (prevFile : Option Json) (now : Int)
    (hm : ∃ raw ∈ entries, malformedEntry cfg.tz_name raw) :
    (∃ msg, load_apps cfg.tz_name entries = Except.error msg) ∧
    (mainRun cfg entries probe prevFile now).events = [] ∧
    (mainRun cfg entries probe prevFile now).exit = none := by
  obtain ⟨msg, hmsg⟩ := loadAppsAux_error cfg.tz_name entries 0 hm
  have hload : load_apps cfg.tz_name entries = Except.error msg := hmsg
  refine ⟨⟨msg, hload⟩, ?_, ?_⟩ <;> rw [mainRun, hload]

/-- A target entry with a non-numeric `app_id`. -/
def exBadEntry : Json :=
  Json.obj [("name", Json.str "A"), ("app_id", Json.str "abc"),
            ("store_url", Json.str "https://x")]

/-- Witness for C8 at a concrete malformed entry (`app_id = "abc"`). -/
theorem malformed_apps_fail_fast_witness :
    (∃ msg, load_apps (cfgAlways true).tz_name [exBadEntry] = Except.error msg) ∧
    (mainRun (cfgAlways true) [exBadEntry] probeAll404 none 0).events = [] ∧
    (mainRun (cfgAlways true) [exBadEntry] probeAll404 none 0).exit = none :=
  malformed_apps_fail_fast (cfgAlways true) [exBadEntry] probeAll404 none 0
    ⟨exBadEntry, List.mem_singleton.mpr rfl,
      ⟨[("name", Json.str "A"), ("app_id", Json.str "abc"),
        ("store_url", Json.str "https://x")], rfl,
        Or.inr (Or.inl (by decide))⟩⟩
